import Mathlib

/-!
Shallow embedding of the core accounting and lifecycle engine of a crypto
backtesting system (spot / isolated-margin / futures accounts, a market-data
tape, a liquidation detector and a per-bar engine loop).

Conventions of the embedding:
* All prices, quantities and monetary amounts are embedded as `ℚ` (the Python
  source uses floats; the specification asks for exact decimal semantics at the
  rounding step, and every constant of the configuration is an exact decimal).
* Timestamps are embedded as `ℚ`, counted in seconds (the source uses pandas
  timestamps and converts differences to fractional hours by
  `total_seconds() / 3600`).
* Numeric lifecycle fields of an order that the source initializes to `None`
  are embedded as `ℚ` initialized to `0`.  Every code path exercised here sets
  them before reading them.  Python truthiness tests on such fields
  (`if order.entry_price`) are embedded as `≠ 0`, which agrees with the
  falsiness of both `None` and `0.0`.
* Fields whose `None` state is observable in the behaviour under study
  (`liquidation_price`, the percentage fields) are embedded as `Option ℚ`.
* A Python method that mutates `self` and returns `None` is embedded as a
  function returning the updated state, paired where relevant with an outcome
  tag describing which exit of the method was taken.  Outcome constructors
  whose name starts with `raised` model a Python exception propagating to the
  caller; the others model a `print` diagnostic followed by a normal return.
-/

namespace CryptoEngine

/-- Order side: `'buy' / 'sell' / 'long' / 'short'` from the source. -/
inductive Side where
  | buy
  | sell
  | long
  | short
deriving DecidableEq

/-- Account mode: `'spot' / 'margin' / 'futures'`. -/
inductive Mode where
  | spot
  | margin
  | futures
deriving DecidableEq

/-- Account subtype; only `"regular"` exists in the configuration. -/
inductive AccountSubtype where
  | regular
deriving DecidableEq

/-- Typed stand-ins for the `ValueError`s the source raises. -/
inductive EngineError where
  | notFound
  | insufficientMargin
  | noLiquidationRisk
  | invalidPositionType
  | leverageExceedsTier
  | notionalOutOfRange
deriving DecidableEq

/-- The quantity field of an order: a number, or one of the sentinels
`"all_cash"` / `"all_holdings"`. -/
inductive Qty where
  | exact (q : ℚ)
  | allCash
  | allHoldings
deriving DecidableEq

/-! ### Configuration constants (`configs/constants.py`) -/

/-- `FEE_STRUCTURE[mode][subtype]`: spot 0.001, margin 0.001, futures 0.0004. -/
def feeStructure : Mode → AccountSubtype → ℚ
  | .spot, .regular => 0.001
  | .margin, .regular => 0.001
  | .futures, .regular => 0.0004

/-- `BORROW_INTEREST_HOURLY = 0.0000065938`. -/
def borrowInterestHourly : ℚ := 0.0000065938

/-- `FUNDING_FEE_EVERY_8H = 0.0001`. -/
def fundingFeeEvery8h : ℚ := 0.0001

/-- `SLIPPAGE` per mode: spot 0.0005, margin 0.0007, futures 0.0007. -/
def slippageRate : Mode → ℚ
  | .spot => 0.0005
  | .margin => 0.0007
  | .futures => 0.0007

/-- `MARGIN_MAX_LEVERAGE = 10`. -/
def marginMaxLeverage : ℚ := 10

/-- `FUTURES_MAX_LEVERAGE = 125`. -/
def futuresMaxLeverage : ℚ := 125

/-! ### Fee calculator (`fee_calculator.py`), constructed by the engine with
the configuration constants. -/

/-- `FeeCalculator.trade_fee`: `notional * fee_struct[mode][acc_type]`. -/
def tradeFee (mode : Mode) (accType : AccountSubtype) (notional : ℚ) : ℚ :=
  notional * feeStructure mode accType

/-- `FeeCalculator.borrow_fee`: `borrow_amount * borrow_rate_hr * hours`. -/
def borrowFee (borrowAmount : ℚ) (hours : ℚ) : ℚ :=
  borrowAmount * borrowInterestHourly * hours

/-- `FeeCalculator.funding_fee`: `notional * funding_rate_8h * events`. -/
def fundingFee (notional : ℚ) (totalFundingEvents : ℚ) : ℚ :=
  notional * fundingFeeEvery8h * totalFundingEvents

/-! ### Order (`orders/order.py`) -/

/-- `TradeOrder`.  The opaque uuid id is embedded as a natural number. -/
structure TradeOrder where
  id : ℕ
  asset : ℕ
  qty : Qty
  closed : Bool := false
  side : Side
  mode : Mode
  leverage : ℚ := 1
  entry_price : ℚ := 0
  exit_price : ℚ := 0
  price_change_percentage_100 : Option ℚ := none
  open_ts : ℚ := 0
  close_ts : ℚ := 0
  open_amount_notional : ℚ := 0
  open_amount_margin : ℚ := 0
  open_amount_user : ℚ := 0
  closed_amount_notional : ℚ := 0
  closed_amount : ℚ := 0
  closed_amount_user : ℚ := 0
  unrealized_pnl : ℚ := 0
  realized_pnl : ℚ := 0
  roi_percentage_100 : Option ℚ := none
  realized_roi_percentage_100 : Option ℚ := none
  trade_fee_spot : ℚ := 0
  trade_fee_open : ℚ := 0
  trade_fee_close : ℚ := 0
  borrow_fee_margin : ℚ := 0
  funding_fee_futures : ℚ := 0
  liquidation_price : Option ℚ := none
  order_liquidated : Bool := false
deriving DecidableEq

/-- The numeric value of an order's quantity.  The open paths always store a
resolved numeric quantity before an order enters the open set, so the
sentinel branches are unreachable for orders read back from account state. -/
def TradeOrder.qtyValue (o : TradeOrder) : ℚ :=
  match o.qty with
  | .exact q => q
  | _ => 0

/-! ### Holdings, embedded as an association list mirroring
`defaultdict(float)` (missing key reads as `0`). -/

/-- Read `holdings[a]` with the `defaultdict(float)` default of `0`. -/
def hGet (h : List (ℕ × ℚ)) (a : ℕ) : ℚ :=
  ((h.find? (fun p => p.1 = a)).map Prod.snd).getD 0

/-- Write `holdings[a] = v`, keeping one entry per key. -/
def hSet (h : List (ℕ × ℚ)) (a : ℕ) (v : ℚ) : List (ℕ × ℚ) :=
  if h.any (fun p => p.1 = a) then
    h.map (fun p => if p.1 = a then (a, v) else p)
  else
    h ++ [(a, v)]

/-- `holdings[a] += d`. -/
def hAdd (h : List (ℕ × ℚ)) (a : ℕ) (d : ℚ) : List (ℕ × ℚ) :=
  hSet h a (hGet h a + d)

/-! ### Market data (`market_data/market_data.py`).  Each asset carries its
bar rows as (timestamp, close) pairs, index order preserved. -/

/-- `MarketData`: mapping from asset id to its (timestamp, close) rows. -/
structure MarketData where
  assetData : List (ℕ × List (ℚ × ℚ))
deriving DecidableEq

/-- Rows of one asset; an unknown asset yields `[]` (the source raises
`ValueError` there, and every lookup below then fails with `notFound`,
matching the `ValueError` that propagates either way). -/
def MarketData.rows (md : MarketData) (asset : ℕ) : List (ℚ × ℚ) :=
  ((md.assetData.find? (fun p => p.1 = asset)).map Prod.snd).getD []

/-- The asset list, in insertion order (`self.assets`). -/
def MarketData.assets (md : MarketData) : List ℕ :=
  md.assetData.map Prod.fst

/-- The bar timestamps of one asset (the dataframe index). -/
def MarketData.timestamps (md : MarketData) (asset : ℕ) : List ℚ :=
  (md.rows asset).map Prod.fst

/-- `get_price`: the close at an exact bar timestamp, else `ValueError`. -/
def MarketData.getPrice (md : MarketData) (asset : ℕ) (ts : ℚ) :
    Except EngineError ℚ :=
  match (md.rows asset).find? (fun r => r.1 = ts) with
  | some r => .ok r.2
  | none => .error .notFound

/-- `get_first_timestamp`. -/
def MarketData.getFirstTimestamp (md : MarketData) (asset : ℕ) :
    Except EngineError ℚ :=
  match (md.timestamps asset).head? with
  | some t => .ok t
  | none => .error .notFound

/-- `get_next_timestamp`: `(end?, next_or_none)`; `ValueError` when `ts` is
not a bar timestamp.  `get_loc` on a unique index is the first index of
`ts`, embedded as `findIdx?`. -/
def MarketData.getNextTimestamp (md : MarketData) (asset : ℕ) (ts : ℚ) :
    Except EngineError (Bool × Option ℚ) :=
  let tl := md.timestamps asset
  match tl.findIdx? (fun t => t = ts) with
  | some i =>
      if h : i + 1 < tl.length then .ok (false, some (tl.get ⟨i + 1, h⟩))
      else .ok (true, none)
  | none => .error .notFound

/-! ### Liquidation-price formulas (`accounts/liquidation_price.py`) -/

/-- `calculate_liquidation_price_margin` (fixed Binance MAMR rates,
long 0.05, short 0.0476190501). -/
def calculateLiquidationPriceMargin (positionType : Side) (entryPrice : ℚ)
    (marginBalance : ℚ) (qty : ℚ) (leverage : ℚ) : Except EngineError ℚ :=
  let notionalValue := entryPrice * qty
  let initialBalance := notionalValue / leverage
  match positionType with
  | .buy | .long =>
      let rate : ℚ := 0.05
      if marginBalance < initialBalance then .error .insufficientMargin
      else if notionalValue ≤ marginBalance then .error .noLiquidationRisk
      else
        let mamrDrop := (rate * (notionalValue - marginBalance)) / qty
        .ok (entryPrice - ((marginBalance / qty) - mamrDrop))
  | .sell | .short =>
      let rate : ℚ := 0.0476190501
      if marginBalance < initialBalance then .error .insufficientMargin
      else if notionalValue ≤ marginBalance then .error .noLiquidationRisk
      else
        let mamrDrop := (rate * (notionalValue + marginBalance)) / qty
        .ok (entryPrice + ((marginBalance / qty) - mamrDrop))

/-- One row of the futures maintenance-tier ladder. -/
structure FuturesTier where
  tmin : ℚ
  tmax : ℚ
  maxLeverage : ℚ
  mmr : ℚ
  ma : ℚ
deriving DecidableEq

/-- The 12-row tier table shipped in
`calculate_liquidation_price_futures_new.get_maintenance_data`. -/
def futuresTiers : List FuturesTier :=
  [ ⟨0, 300000, 125, 0.0040, 0⟩,
    ⟨300000, 800000, 100, 0.0050, 300⟩,
    ⟨800000, 3000000, 75, 0.0065, 1500⟩,
    ⟨3000000, 12000000, 50, 0.0100, 12000⟩,
    ⟨12000000, 70000000, 25, 0.0200, 132000⟩,
    ⟨70000000, 100000000, 20, 0.0250, 482000⟩,
    ⟨100000000, 230000000, 10, 0.0500, 2982000⟩,
    ⟨230000000, 480000000, 5, 0.1000, 14482000⟩,
    ⟨480000000, 600000000, 4, 0.1250, 26482000⟩,
    ⟨600000000, 800000000, 3, 0.1500, 41482000⟩,
    ⟨800000000, 1200000000, 2, 0.2500, 121482000⟩,
    ⟨1200000000, 1800000000, 1, 0.5000, 421482000⟩ ]

/-- `get_maintenance_data`: first tier with `min ≤ notional < max`; reject
leverage above that tier's max; `NotionalOutOfRange` when no tier brackets
the notional. -/
def getMaintenanceData (notionalValue : ℚ) (leverage : ℚ) :
    Except EngineError (ℚ × ℚ) :=
  match futuresTiers.find?
      (fun t => decide (t.tmin ≤ notionalValue ∧ notionalValue < t.tmax)) with
  | some t =>
      if leverage ≤ t.maxLeverage then .ok (t.mmr, t.ma)
      else .error .leverageExceedsTier
  | none => .error .notionalOutOfRange

/-- `calculate_liquidation_price_futures_new` (the variant the dispatcher
uses for futures accounts). -/
def calculateLiquidationPriceFuturesNew (positionType : Side)
    (entryPrice : ℚ) (marginBalance : ℚ) (qty : ℚ) (leverage : ℚ) :
    Except EngineError ℚ :=
  let notionalValue := entryPrice * qty
  let initialBalance := notionalValue / leverage
  match getMaintenanceData notionalValue leverage with
  | .error e => .error e
  | .ok (mmr, ma) =>
      if marginBalance < initialBalance then .error .insufficientMargin
      else
        match positionType with
        | .long | .buy =>
            if notionalValue ≤ marginBalance then .ok 0
            else
              .ok ((marginBalance + ma - (qty * entryPrice)) /
                (qty * mmr - qty))
        | .short | .sell =>
            .ok ((marginBalance + ma + (qty * entryPrice)) /
              (qty * mmr + qty))

/-! ### Account base (`accounts/accounts.py`) -/

/-- Account state: subtype, cash, portfolio value, holdings, open set and
history.  `acc_name` carries no behaviour and is omitted. -/
structure Account where
  acc_type : AccountSubtype := .regular
  initial_cash : ℚ
  cash : ℚ
  portfolio_value : ℚ
  holdings : List (ℕ × ℚ) := []
  open_orders : List TradeOrder := []
  history : List TradeOrder := []
deriving DecidableEq

/-- `Account.__init__`: cash and portfolio value start at the initial cash;
holdings, open orders and history start empty. -/
def Account.init (cash : ℚ) : Account :=
  { acc_type := .regular, initial_cash := cash, cash := cash,
    portfolio_value := cash, holdings := [], open_orders := [], history := [] }

/-- `_apply_slippage`: `price * (1+s)` for buy/long, `price * (1-s)` else. -/
def applySlippage (price : ℚ) (side : Side) (slippage : ℚ) : ℚ :=
  price * (if side = .buy ∨ side = .long then 1 + slippage else 1 - slippage)

/-- `_get_opposite_side`. -/
def oppositeSide : Side → Side
  | .buy => .sell
  | .sell => .buy
  | .long => .short
  | .short => .long

/-- `_round_qty` with the default step `1e-5`: truncate toward zero to the
step (`Decimal.quantize(..., ROUND_DOWN)`). -/
def roundQty (q : ℚ) : ℚ :=
  if 0 ≤ q then ((⌊q * 100000⌋ : ℤ) : ℚ) / 100000
  else ((⌈q * 100000⌉ : ℤ) : ℚ) / 100000

/-- `_record_close`: stamp exit price / close timestamp / flags on the order,
append it to history and remove it from the open set.  The source removes the
mutated object itself (`list.remove(order)`); here the first entry with the
same id is removed, which is that object. -/
def Account.recordClose (acc : Account) (order : TradeOrder) (price : ℚ)
    (closeTs : ℚ) (liquidated : Bool) : Account :=
  let o := { order with
    exit_price := price,
    close_ts := closeTs,
    closed := true,
    order_liquidated := if liquidated then true else order.order_liquidated }
  { acc with
    history := acc.history ++ [o],
    open_orders := acc.open_orders.eraseP (fun x => x.id = order.id) }

/-- `_liquidate_order`: close an order at the current price because it hit its
liquidation price.  Note the source books `realized_pnl` as
`+open_amount_margin` (it copies `unrealized_pnl = order.open_amount_margin`)
while setting both ROI fields to `-100`.  Cash is never touched. -/
def Account.liquidateOrder (acc : Account) (order : TradeOrder) (price : ℚ)
    (closeTs : ℚ) : Account :=
  if order.closed then acc
  else if ¬ (order.mode = .margin ∨ order.mode = .futures) then acc
  else
    let pcp : Option ℚ :=
      if order.entry_price ≠ 0 then
        some ((price - order.entry_price) / order.entry_price * 100)
      else none
    let holdings' :=
      if order.side = .buy ∨ order.side = .long then
        hAdd acc.holdings order.asset (-order.qtyValue)
      else if order.side = .sell ∨ order.side = .short then
        hAdd acc.holdings order.asset order.qtyValue
      else acc.holdings
    let o := { order with
      price_change_percentage_100 := pcp,
      unrealized_pnl := order.open_amount_margin,
      realized_pnl := order.open_amount_margin,
      roi_percentage_100 := some (-100),
      realized_roi_percentage_100 := some (-100) }
    Account.recordClose { acc with holdings := holdings' } o price closeTs true

/-! ### Margin account (`accounts/margin.py`) -/

/-- Exit taken by an `open` call.  `raised...` constructors model exceptions
propagating to the caller (state unchanged up to that point); the `rejected...`
constructors model the diagnostic-print-and-return exits. -/
inductive OpenOutcome where
  | opened
  | rejectedLeverage
  | rejectedQtyResolved
  | rejectedQtyRounded
  | rejectedMode
  | rejectedClosedFlag
  | rejectedInsufficientCash
  | rejectedInsufficientHoldings
  | rejectedLiquidationCalc
  | raisedPriceLookup
  | raisedQtyType
deriving DecidableEq

/-- Exit taken by a `close` call.  Only `raisedPriceLookup` models an
exception; `notFoundNotice` and the other notices are `print`-and-return. -/
inductive CloseOutcome where
  | closedOk
  | notFoundNotice
  | alreadyClosedInHistory
  | alreadyClosedFlag
  | wrongMode
  | raisedPriceLookup
deriving DecidableEq

namespace MarginAccount

/-- `MarginAccount.max_open_qty`. -/
def maxOpenQty (acc : Account) (price : ℚ) (leverage : ℚ) (side : Side)
    (isPriceSlippaged : Bool) : ℚ :=
  if price ≤ 0 then 0
  else
    let px := if isPriceSlippaged then price
      else applySlippage price side (slippageRate .margin)
    if px ≤ 0 then 0
    else
      let feeRate := feeStructure .margin acc.acc_type
      roundQty (acc.cash / (px * ((1 / leverage) + feeRate)))

/-- `MarginAccount._calculate_close_final_cash_value`: returns
`(closed_amount_user, pnl, fee, borrow, refund_margin)`. -/
def closeFinalCashValue (acc : Account) (px : ℚ) (o : TradeOrder) (ts : ℚ) :
    ℚ × ℚ × ℚ × ℚ × ℚ :=
  let hours := (ts - o.open_ts) / 3600
  let exitAmountNotional := o.qtyValue * px
  let pnlRaw := (px - o.entry_price) * o.qtyValue
  let pnl := if o.side = .short ∨ o.side = .sell then -pnlRaw else pnlRaw
  let fee := tradeFee .margin acc.acc_type exitAmountNotional
  let borrowAmount := o.open_amount_notional - o.open_amount_margin
  let borrow := borrowFee borrowAmount hours
  let refundMargin := o.qtyValue * o.entry_price / o.leverage
  (pnl + refundMargin - fee - borrow, pnl, fee, borrow, refundMargin)

/-- Body of `MarginAccount.open` after the quantity has been resolved to a
number `q` (the source then truncates it and rejects non-positive results).
Note the source adjusts holdings BEFORE computing the liquidation price, so
the `rejectedLiquidationCalc` exit returns with holdings already changed. -/
def openResolved (acc : Account) (order : TradeOrder) (ts : ℚ) (px : ℚ)
    (q : ℚ) : Account × OpenOutcome :=
  let qr := roundQty q
  if qr ≤ 0 then (acc, .rejectedQtyRounded)
  else
    let notional := qr * px
    let margin := notional / order.leverage
    let fee := tradeFee .margin acc.acc_type notional
    if ¬ (margin + fee ≤ acc.cash) then (acc, .rejectedInsufficientCash)
    else
      let holdings' :=
        if order.side = .buy ∨ order.side = .long then
          hAdd acc.holdings order.asset qr
        else if order.side = .sell ∨ order.side = .short then
          hAdd acc.holdings order.asset (-qr)
        else acc.holdings
      match calculateLiquidationPriceMargin order.side px margin qr
          order.leverage with
      | .error _ => ({ acc with holdings := holdings' },
          .rejectedLiquidationCalc)
      | .ok lp =>
          let o := { order with
            qty := .exact qr,
            entry_price := px,
            trade_fee_open := fee,
            open_ts := ts,
            open_amount_notional := notional,
            open_amount_margin := margin,
            open_amount_user := margin + fee,
            liquidation_price := some lp }
          ({ acc with
              cash := acc.cash - (margin + fee),
              holdings := holdings',
              open_orders := acc.open_orders ++ [o] }, .opened)

/-- `MarginAccount.open` (named `openOrder` because `open` is a Lean
keyword).  An `all_holdings` sentinel reaches `_round_qty`, which raises
`ValueError` on a non-numeric quantity (`raisedQtyType`). -/
def openOrder (acc : Account) (order : TradeOrder) (ts : ℚ) (md : MarketData) :
    Account × OpenOutcome :=
  if marginMaxLeverage < order.leverage then (acc, .rejectedLeverage)
  else
    match md.getPrice order.asset ts with
    | .error _ => (acc, .raisedPriceLookup)
    | .ok p0 =>
        let px := applySlippage p0 order.side (slippageRate .margin)
        match order.qty with
        | .allCash =>
            let q := maxOpenQty acc px order.leverage order.side true
            if q ≤ 0 then (acc, .rejectedQtyResolved)
            else openResolved acc order ts px q
        | .exact q => openResolved acc order ts px q
        | .allHoldings => (acc, .raisedQtyType)

/-- `MarginAccount.close`.  The `notFoundNotice` exit prints a diagnostic and
returns normally with the state unchanged (the method's docstring promises a
`ValueError` there, but no exception is raised). -/
def close (acc : Account) (orderId : ℕ) (ts : ℚ) (md : MarketData) :
    Account × CloseOutcome :=
  match acc.open_orders.find? (fun o => o.id = orderId) with
  | none =>
      if acc.history.any (fun o => o.id = orderId ∧ o.closed) then
        (acc, .alreadyClosedInHistory)
      else (acc, .notFoundNotice)
  | some order =>
      if order.closed then (acc, .alreadyClosedFlag)
      else if order.mode ≠ .margin then (acc, .wrongMode)
      else
        match md.getPrice order.asset ts with
        | .error _ => (acc, .raisedPriceLookup)
        | .ok p0 =>
            let px := applySlippage p0 (oppositeSide order.side)
              (slippageRate .margin)
            let closedAmountNotional := order.qtyValue * px
            let r := closeFinalCashValue acc px order ts
            let closedAmountUser := r.1
            let pnl := r.2.1
            let fee := r.2.2.1
            let borrow := r.2.2.2.1
            let refundMargin := r.2.2.2.2
            let pnlPct : Option ℚ :=
              if order.open_amount_margin ≠ 0 then
                some (pnl / order.open_amount_margin * 100)
              else none
            let pnlRealizedPct : Option ℚ :=
              if order.open_amount_user ≠ 0 then
                some ((closedAmountUser - order.open_amount_user) /
                  order.open_amount_user * 100)
              else none
            let holdings' :=
              if order.side = .buy ∨ order.side = .long then
                hAdd acc.holdings order.asset (-order.qtyValue)
              else if order.side = .sell ∨ order.side = .short then
                hAdd acc.holdings order.asset order.qtyValue
              else acc.holdings
            let o := { order with
              exit_price := px,
              price_change_percentage_100 :=
                if order.entry_price ≠ 0 then
                  some ((px - order.entry_price) / order.entry_price * 100)
                else none,
              borrow_fee_margin := borrow,
              trade_fee_close := fee,
              close_ts := ts,
              closed_amount_notional := closedAmountNotional,
              closed_amount := pnl + refundMargin,
              closed_amount_user := pnl + refundMargin - fee - borrow,
              unrealized_pnl := pnl,
              realized_pnl := (pnl + refundMargin - fee - borrow) -
                order.open_amount_user,
              roi_percentage_100 := pnlPct,
              realized_roi_percentage_100 := pnlRealizedPct,
              closed := true }
            let acc' := { acc with
              cash := acc.cash + (pnl + refundMargin - fee - borrow),
              holdings := holdings' }
            (Account.recordClose acc' o px ts false, .closedOk)

/-- The `for order in self.open_orders` loop of `close_all_open_orders`,
embedded exactly as CPython executes it: an internal index walks the LIVE
list while `close` removes elements from it, so each successful close shifts
the remaining orders one slot left under the iterator.  The fuel starts at
the initial list length, which bounds the number of passes. -/
def closeAllAux (ts : ℚ) (md : MarketData) :
    ℕ → Account → ℕ → Account
  | 0, acc, _ => acc
  | fuel + 1, acc, i =>
      match acc.open_orders[i]? with
      | some order =>
          let acc' :=
            if ¬ order.closed then (close acc order.id ts md).1 else acc
          closeAllAux ts md fuel acc' (i + 1)
      | none => acc

/-- `MarginAccount.close_all_open_orders`. -/
def closeAllOpenOrders (acc : Account) (ts : ℚ) (md : MarketData) : Account :=
  closeAllAux ts md acc.open_orders.length acc 0

/-- `MarginAccount.update_portfolio_value`: cash plus the closing cash value
of every open order at the current prices; a missing price for an open
order's asset is a `KeyError` propagating out (`.error`). -/
def updatePortfolioValue (acc : Account) (prices : List (ℕ × ℚ)) (ts : ℚ) :
    Except EngineError Account := do
  let vals ← acc.open_orders.mapM (fun o =>
    match prices.find? (fun p => p.1 = o.asset) with
    | some p => Except.ok (closeFinalCashValue acc p.2 o ts).1
    | none => Except.error EngineError.notFound)
  Except.ok { acc with portfolio_value := acc.cash + vals.sum }

end MarginAccount

/-! ### Spot account (`accounts/spot.py`) -/

namespace SpotAccount

/-- `SpotAccount._calculate_close_final_cash_value`:
`(cost + fee, cost, fee)`. -/
def closeFinalCashValue (acc : Account) (px : ℚ) (q : ℚ) : ℚ × ℚ × ℚ :=
  let cost := q * px
  let fee := tradeFee .spot acc.acc_type cost
  (cost + fee, cost, fee)

/-- `SpotAccount.max_open_qty`.  The source returns `None` on the sell side
(after the `price ≤ 0` guards, which return `0` for either side). -/
def maxOpenQty (acc : Account) (price : ℚ) (side : Side)
    (isPriceSlippaged : Bool) : Option ℚ :=
  if price ≤ 0 then some 0
  else
    let px := if isPriceSlippaged then price
      else applySlippage price side (slippageRate .spot)
    if px ≤ 0 then some 0
    else
      let feeRate := feeStructure .spot acc.acc_type
      let maxQty := acc.cash / (px * (1 + feeRate))
      if side = .buy ∨ side = .long then some (roundQty maxQty) else none

/-- `SpotAccount.max_sell_qty`: positive holdings of the asset, else `0`. -/
def maxSellQty (acc : Account) (asset : ℕ) : ℚ :=
  if 0 < hGet acc.holdings asset then hGet acc.holdings asset else 0

/-- Body of `SpotAccount.open` once the quantity is a number `q`.  A spot
order fills instantly: it is appended to history already closed. -/
def openResolved (acc : Account) (order : TradeOrder) (ts : ℚ) (px : ℚ)
    (q : ℚ) : Account × OpenOutcome :=
  if order.mode ≠ .spot then (acc, .rejectedMode)
  else if order.closed then (acc, .rejectedClosedFlag)
  else if q ≤ 0 then (acc, .rejectedQtyResolved)
  else
    let qr := roundQty q
    if qr ≤ 0 then (acc, .rejectedQtyRounded)
    else
      let r := closeFinalCashValue acc px qr
      let cost := r.2.1
      let fee := r.2.2
      if order.side = .buy ∨ order.side = .long then
        if ¬ (cost + fee ≤ acc.cash) then (acc, .rejectedInsufficientCash)
        else
          let o := { order with
            qty := .exact qr,
            open_amount_user := cost + fee,
            open_amount_notional := cost,
            entry_price := px,
            trade_fee_spot := fee,
            open_ts := ts,
            closed := true }
          ({ acc with
              cash := acc.cash - (cost + fee),
              holdings := hAdd acc.holdings order.asset qr,
              history := acc.history ++ [o] }, .opened)
      else
        if ¬ (qr ≤ hGet acc.holdings order.asset) then
          (acc, .rejectedInsufficientHoldings)
        else
          let o := { order with
            qty := .exact qr,
            open_amount_user := cost - fee,
            open_amount_notional := cost,
            entry_price := px,
            trade_fee_spot := fee,
            open_ts := ts,
            closed := true }
          ({ acc with
              cash := acc.cash + (cost - fee),
              holdings := hAdd acc.holdings order.asset (-qr),
              history := acc.history ++ [o] }, .opened)

/-- `SpotAccount.open` (named `openOrder`: `open` is a Lean keyword).
`all_cash` on the sell side resolves to `None`, and the following
`order.qty <= 0` comparison raises `TypeError` (`raisedQtyType`). -/
def openOrder (acc : Account) (order : TradeOrder) (ts : ℚ) (md : MarketData) :
    Account × OpenOutcome :=
  match md.getPrice order.asset ts with
  | .error _ => (acc, .raisedPriceLookup)
  | .ok p0 =>
      let px := applySlippage p0 order.side (slippageRate .spot)
      match order.qty with
      | .allCash =>
          match maxOpenQty acc px order.side true with
          | none => (acc, .raisedQtyType)
          | some q =>
              if q = 0 then (acc, .rejectedQtyResolved)
              else if q ≤ 0 then (acc, .rejectedQtyResolved)
              else openResolved acc order ts px q
      | .allHoldings =>
          let q := maxSellQty acc order.asset
          if q = 0 then (acc, .rejectedQtyResolved)
          else if q ≤ 0 then (acc, .rejectedQtyResolved)
          else openResolved acc order ts px q
      | .exact q => openResolved acc order ts px q

/-- `SpotAccount.update_portfolio_value`: liquidation-equivalent mark; a
missing price reads as `0` (`current_prices.get(asset, 0)`). -/
def updatePortfolioValue (acc : Account) (prices : List (ℕ × ℚ)) : Account :=
  { acc with portfolio_value := acc.cash +
      (acc.holdings.map (fun p =>
        let pr := ((prices.find? (fun c => c.1 = p.1)).map Prod.snd).getD 0
        p.2 * pr - tradeFee .spot acc.acc_type (p.2 * pr))).sum }

end SpotAccount

/-! ### Futures account portfolio value.

The repository imports `engine.accounts.futures.FuturesAccount`, but
`futures.py` itself is not under `src/`; only its callers are.  Its
portfolio-value update is therefore modelled from the spec. -/

/-- Number of 8-hour funding boundaries (multiples of 28800 s) strictly
between two timestamps. -/
def fundingEventsBetween (a b : ℚ) : ℕ :=
  if a < b then (max 0 (⌈b / 28800⌉ - 1 - ⌊a / 28800⌋)).toNat else 0

namespace FuturesAccount

/-- Modelled from the spec: `futures.py` is missing from the sources, and the
spec defines the futures close-out cash value as the margin analogue with the
borrow fee replaced by the periodic funding fee (`pnl + refund − close_fee −
funding`), funding accruing per 8-hour boundary strictly between the open
timestamp and now. -/
def closingCashValue (acc : Account) (px : ℚ) (o : TradeOrder) (ts : ℚ) : ℚ :=
  let pnlRaw := (px - o.entry_price) * o.qtyValue
  let pnl := if o.side = .short ∨ o.side = .sell then -pnlRaw else pnlRaw
  let fee := tradeFee .futures acc.acc_type (o.qtyValue * px)
  let funding := fundingFee o.open_amount_notional
    ((fundingEventsBetween o.open_ts ts : ℕ) : ℚ)
  let refundMargin := o.qtyValue * o.entry_price / o.leverage
  pnl + refundMargin - fee - funding

/-- Modelled from the spec: futures mark-to-market is `cash + Σ` over open
orders of the closing cash value at the current price, like the margin
account's `update_portfolio_value`. -/
def updatePortfolioValue (acc : Account) (prices : List (ℕ × ℚ)) (ts : ℚ) :
    Except EngineError Account := do
  let vals ← acc.open_orders.mapM (fun o =>
    match prices.find? (fun p => p.1 = o.asset) with
    | some p => Except.ok (closingCashValue acc p.2 o ts)
    | none => Except.error EngineError.notFound)
  Except.ok { acc with portfolio_value := acc.cash + vals.sum }

end FuturesAccount

/-! ### Liquidation sweep (`TradingEngine.check_liquidations`, inner loop) -/

/-- One account's pass of `check_liquidations`: the `for order in
account.open_orders` loop, embedded with the CPython live-list iterator (an
index over the list while `_liquidate_order` removes elements).  A failing
price lookup is caught per order and skipped.  A `None` liquidation price is
also embedded as a skip: orders put into the open set by `open` always carry
`some` liquidation price, and on a `None` the source comparison would raise
`TypeError` without mutating the account. -/
def sweepAux (mode : Mode) (md : MarketData) (ts : ℚ) :
    ℕ → Account → ℕ → Account
  | 0, acc, _ => acc
  | fuel + 1, acc, i =>
      match acc.open_orders[i]? with
      | some o =>
          let acc' :=
            if o.mode = mode ∧ o.closed = false then
              match o.liquidation_price, md.getPrice o.asset ts with
              | some lp, .ok p =>
                  if ((o.side = .buy ∨ o.side = .long) ∧ p ≤ lp) ∨
                      ((o.side = .sell ∨ o.side = .short) ∧ lp ≤ p) then
                    acc.liquidateOrder o p ts
                  else acc
              | _, _ => acc
            else acc
          sweepAux mode md ts fuel acc' (i + 1)
      | none => acc

/-- The liquidation sweep over one account. -/
def Account.checkLiquidationsSweep (acc : Account) (mode : Mode)
    (md : MarketData) (ts : ℚ) : Account :=
  sweepAux mode md ts acc.open_orders.length acc 0

/-! ### User (`users/user.py`) and engine (`trading_engine.py`) -/

/-- A user: up to one account per mode (`accounts` dict keyed by mode).  The
per-user `portfolio_value` mirror dict and the daywise snapshot lists carry
no engine behaviour used here and are omitted. -/
structure User where
  spotAcc : Option Account
  marginAcc : Option Account
  futuresAcc : Option Account
deriving DecidableEq

/-- `User.__init__`: create the requested accounts with their initial cash. -/
def User.init (spotFlag marginFlag futuresFlag : Bool)
    (spotCash marginCash futuresCash : ℚ) : User :=
  { spotAcc := if spotFlag then some (Account.init spotCash) else none,
    marginAcc := if marginFlag then some (Account.init marginCash) else none,
    futuresAcc := if futuresFlag then some (Account.init futuresCash) else none }

/-- The engine's per-user liquidation sweep: every account of the user, each
with its own mode tag (`for mode in user.get_all_accounts_names()`). -/
def User.checkLiquidationsSweep (u : User) (md : MarketData) (ts : ℚ) : User :=
  { spotAcc := u.spotAcc.map (fun a => a.checkLiquidationsSweep .spot md ts),
    marginAcc := u.marginAcc.map (fun a => a.checkLiquidationsSweep .margin md ts),
    futuresAcc := u.futuresAcc.map
      (fun a => a.checkLiquidationsSweep .futures md ts) }

/-- Engine state: the tape, the registered users (a dict keyed by user id)
and the current timestamp. -/
structure TradingEngine where
  md : MarketData
  users : List (ℕ × User)
  current_ts : ℚ
deriving DecidableEq

/-- Dict lookup in the user registry. -/
def usersLookup (us : List (ℕ × User)) (uid : ℕ) : Option User :=
  (us.find? (fun p => p.1 = uid)).map Prod.snd

/-- Dict assignment `self.users[user_id] = ...`: replace the entry when the
key exists, append otherwise. -/
def usersInsert (us : List (ℕ × User)) (uid : ℕ) (u : User) :
    List (ℕ × User) :=
  if us.any (fun p => p.1 = uid) then
    us.map (fun p => if p.1 = uid then (uid, u) else p)
  else us ++ [(uid, u)]

/-- `TradingEngine.register_user`: unconditionally assigns a freshly
initialized `User` into the registry.  The docstring of the source promises a
`ValueError` for an already-registered id, but the body has no check and no
raise: an existing user is silently overwritten. -/
def TradingEngine.registerUser (e : TradingEngine) (uid : ℕ)
    (spotFlag marginFlag futuresFlag : Bool)
    (spotCash marginCash futuresCash : ℚ) : TradingEngine :=
  let u := User.init spotFlag marginFlag futuresFlag spotCash marginCash
    futuresCash
  { e with users := usersInsert e.users uid u }

/-- `TradingEngine.check_liquidations` over all users. -/
def TradingEngine.checkLiquidations (e : TradingEngine) : TradingEngine :=
  let us := e.users.map
    (fun p => (p.1, p.2.checkLiquidationsSweep e.md e.current_ts))
  { e with users := us }

/-- The first asset of the tape (`self.assets[0]`, the pace driver). -/
def primaryAsset (md : MarketData) : ℕ :=
  ((md.assetData.head?).map Prod.fst).getD 0

/-- The engine's per-account price dict
`{asset: get_price(asset, ts) for asset in holdings if holdings[asset] ≠ 0}`;
a failing price lookup propagates. -/
def buildCurrentPrices (md : MarketData) (ts : ℚ)
    (holdings : List (ℕ × ℚ)) : Except EngineError (List (ℕ × ℚ)) :=
  (holdings.filter (fun p => p.2 ≠ 0)).mapM
    (fun p => (md.getPrice p.1 ts).map (fun c => (p.1, c)))

/-- Engine loop body for one account inside `update_portfolio_values`. -/
def updateAccountPV (mode : Mode) (acc : Account) (md : MarketData) (ts : ℚ) :
    Except EngineError Account := do
  let prices ← buildCurrentPrices md ts acc.holdings
  match mode with
  | .spot => Except.ok (SpotAccount.updatePortfolioValue acc prices)
  | .margin => MarginAccount.updatePortfolioValue acc prices ts
  | .futures => FuturesAccount.updatePortfolioValue acc prices ts

/-- `update_portfolio_values` for one user's accounts. -/
def User.updatePVs (u : User) (md : MarketData) (ts : ℚ) :
    Except EngineError User := do
  let s ← match u.spotAcc with
    | some a => (updateAccountPV .spot a md ts).map some
    | none => Except.ok none
  let m ← match u.marginAcc with
    | some a => (updateAccountPV .margin a md ts).map some
    | none => Except.ok none
  let f ← match u.futuresAcc with
    | some a => (updateAccountPV .futures a md ts).map some
    | none => Except.ok none
  Except.ok { spotAcc := s, marginAcc := m, futuresAcc := f }

/-- `TradingEngine.update_portfolio_values`. -/
def TradingEngine.updatePortfolioValues (e : TradingEngine) :
    Except EngineError TradingEngine :=
  (e.users.mapM (fun (p : ℕ × User) =>
    (p.2.updatePVs e.md e.current_ts).map (fun u => (p.1, u)))).map
    (fun us => { e with users := us })

/-- `TradingEngine.update_current_timestamp`: first mark all accounts to
market (failures propagate before the clock moves), then advance
`current_ts` to the tape's next timestamp for `assets[0]` unless the end of
the tape was reached; returns the end-of-tape flag.  The optional daywise
snapshot only appends to the per-user snapshot lists, which are omitted. -/
def TradingEngine.updateCurrentTimestamp (e : TradingEngine) :
    Except EngineError (TradingEngine × Bool) := do
  let e1 ← e.updatePortfolioValues
  match e1.md.getNextTimestamp (primaryAsset e1.md) e1.current_ts with
  | .error er => Except.error er
  | .ok (done, nxt) =>
      if done then Except.ok (e1, true)
      else Except.ok ({ e1 with current_ts := nxt.getD e1.current_ts }, false)

/-! ### Concrete fixtures used by the evaluation theorems and witnesses -/

/-- The three per-mode cash balances of a user's accounts (a projection used
to state cash-preservation across the engine sweep). -/
def userCashes (u : User) : Option ℚ × Option ℚ × Option ℚ :=
  (u.spotAcc.map Account.cash, u.marginAcc.map Account.cash,
    u.futuresAcc.map Account.cash)

/-- One asset, one bar at time 0 with close 100. -/
def c2Md : MarketData := ⟨[(0, [(0, 100)])]⟩

/-- A fresh margin account with cash 1000. -/
def c2Acc : Account := Account.init 1000

/-- A margin long, qty 1, leverage 1: its posted margin equals its notional,
so the liquidation-price computation reports no liquidation risk and the
open is rejected. -/
def c2Order : TradeOrder :=
  { id := 1, asset := 0, qty := .exact 1, side := .long, mode := .margin,
    leverage := 1 }

/-- One asset: close 100 at time 0, crashed to 1 at time 3600. -/
def c3Md : MarketData := ⟨[(0, [(0, 100), (3600, 1)])]⟩

/-- A fresh margin account with cash 20. -/
def c3Acc : Account := Account.init 20

/-- A margin long, qty 1, leverage 10, opened at close 100. -/
def c3Order : TradeOrder :=
  { id := 1, asset := 0, qty := .exact 1, side := .long, mode := .margin,
    leverage := 10 }

/-- An open margin long with entry 100, qty 1, leverage 5 (posted margin 20)
and liquidation price 81. -/
def c1Order : TradeOrder :=
  { id := 1, asset := 0, qty := .exact 1, side := .long, mode := .margin,
    leverage := 5, entry_price := 100, open_ts := 0,
    open_amount_notional := 100, open_amount_margin := 20,
    open_amount_user := 20.1, liquidation_price := some 81 }

/-- The account holding `c1Order`, with cash 55. -/
def c1Acc : Account :=
  { acc_type := .regular, initial_cash := 100, cash := 55,
    portfolio_value := 55, holdings := [(0, 1)], open_orders := [c1Order],
    history := [] }

/-- A bar at time 3600 with close 50, far below the liquidation price 81. -/
def c1Md : MarketData := ⟨[(0, [(3600, 50)])]⟩

/-- The account state after the liquidation sweep over `c1Acc`. -/
def c1After : Account := Account.checkLiquidationsSweep c1Acc .margin c1Md 3600

/-- First of two identical open margin longs (entry 100, qty 1,
leverage 10). -/
def c4Order1 : TradeOrder :=
  { id := 1, asset := 0, qty := .exact 1, side := .long, mode := .margin,
    leverage := 10, entry_price := 100, open_ts := 0,
    open_amount_notional := 100, open_amount_margin := 10,
    open_amount_user := 10.1, liquidation_price := some 90 }

/-- Second open order, differing from `c4Order1` only in its id. -/
def c4Order2 : TradeOrder := { c4Order1 with id := 2 }

/-- An account with TWO open orders, for the bulk-close loop. -/
def c4Acc : Account :=
  { acc_type := .regular, initial_cash := 100, cash := 10,
    portfolio_value := 10, holdings := [(0, 2)],
    open_orders := [c4Order1, c4Order2], history := [] }

/-- Bars at times 0 and 3600, both with close 100. -/
def c4Md : MarketData := ⟨[(0, [(0, 100), (3600, 100)])]⟩

/-- One asset, one bar. -/
def c9Md : MarketData := ⟨[(0, [(0, 100)])]⟩

/-- A fresh margin account: no open orders, no history. -/
def c9Acc : Account := Account.init 1000

/-- An open margin long with entry 100, qty 1, leverage 5, so that
`open_amount_margin = qty * entry / leverage = 20`. -/
def c5Order : TradeOrder :=
  { id := 1, asset := 0, qty := .exact 1, side := .long, mode := .margin,
    leverage := 5, entry_price := 100, open_ts := 0,
    open_amount_notional := 100, open_amount_margin := 20,
    open_amount_user := 20.1, liquidation_price := some 81 }

/-- The account holding `c5Order`. -/
def c5Acc : Account :=
  { acc_type := .regular, initial_cash := 100, cash := 0,
    portfolio_value := 0, holdings := [(0, 1)], open_orders := [c5Order],
    history := [] }

/-- Bars at time 0 (close 100) and 3600 (close 102). -/
def c5Md : MarketData := ⟨[(0, [(0, 100), (3600, 102)])]⟩

/-- Two bars at 0 and 3600 for the clock-advance witness. -/
def c8Md : MarketData := ⟨[(0, [(0, 100), (3600, 99)])]⟩

/-- An engine with no users, positioned at time 0. -/
def c8E : TradingEngine := ⟨c8Md, [], 0⟩

/-- An engine with one registered user (id 5, spot account, cash 100). -/
def c10E : TradingEngine := ⟨c8Md, [(5, User.init true false false 100 0 0)], 0⟩

/-- A fresh margin account with cash 50, for the open-preserves-cash
witness. -/
def c3wAcc : Account := Account.init 50

/-- A margin long, qty 1, leverage 5. -/
def c3wOrder : TradeOrder :=
  { id := 1, asset := 0, qty := .exact 1, side := .long, mode := .margin,
    leverage := 5 }

/-- One asset, one bar at time 0 with close 100 (open-preserves-cash
witness tape). -/
def c3wMd : MarketData := ⟨[(0, [(0, 100)])]⟩

deriving instance DecidableEq for Except

/-! ## Theorems -/

/-- `_liquidate_order` never writes the `cash` field. -/
theorem liquidateOrder_cash (acc : Account) (o : TradeOrder) (p ts : ℚ) :
    (acc.liquidateOrder o p ts).cash = acc.cash := by
  unfold Account.liquidateOrder Account.recordClose
  split
  · rfl
  · split <;> rfl

/-- The per-account liquidation sweep loop never writes `cash`. -/
theorem sweepAux_cash (mode : Mode) (md : MarketData) (ts : ℚ) :
    ∀ (fuel : ℕ) (acc : Account) (i : ℕ),
      (sweepAux mode md ts fuel acc i).cash = acc.cash := by
  intro fuel
  induction fuel with
  | zero => intro acc i; rfl
  | succ n ih =>
      intro acc i
      unfold sweepAux
      cases h : acc.open_orders[i]? with
      | none => rfl
      | some o =>
          rw [ih]
          split
          · split
            · split
              · exact liquidateOrder_cash ..
              · rfl
            all_goals rfl
          · rfl

/-- The sweep over a whole account never writes `cash`. -/
theorem checkLiquidationsSweep_cash (acc : Account) (mode : Mode)
    (md : MarketData) (ts : ℚ) :
    (acc.checkLiquidationsSweep mode md ts).cash = acc.cash := by
  unfold Account.checkLiquidationsSweep
  exact sweepAux_cash ..

/-- The engine-level sweep preserves every account's cash of every user. -/
theorem userCashes_checkLiquidationsSweep (u : User) (md : MarketData)
    (ts : ℚ) : userCashes (u.checkLiquidationsSweep md ts) = userCashes u := by
  cases u with
  | mk s m f =>
      unfold userCashes User.checkLiquidationsSweep
      cases s <;> cases m <;> cases f <;>
        simp [Option.map, checkLiquidationsSweep_cash]

/-- C7: For every liquidation event performed by the engine, cash is
identical before and after: `_liquidate_order` never touches `cash`, the
per-account sweep loop preserves `cash`, and the engine-wide
`check_liquidations` preserves the cash of every account of every user.
The posted margin is forfeited; nothing is credited or debited. -/
theorem c7_liquidation_leaves_cash_unchanged :
    (∀ (acc : Account) (o : TradeOrder) (p ts : ℚ),
       (acc.liquidateOrder o p ts).cash = acc.cash) ∧
    (∀ (acc : Account) (mode : Mode) (md : MarketData) (ts : ℚ),
       (acc.checkLiquidationsSweep mode md ts).cash = acc.cash) ∧
    (∀ e : TradingEngine,
       e.checkLiquidations.users.map (fun p => (p.1, userCashes p.2)) =
         e.users.map (fun p => (p.1, userCashes p.2))) := by
  refine ⟨liquidateOrder_cash, checkLiquidationsSweep_cash, ?_⟩
  intro e
  unfold TradingEngine.checkLiquidations
  simp only [List.map_map]
  apply List.map_congr_left
  intro p _
  simp [Function.comp, userCashes_checkLiquidationsSweep]

set_option maxRecDepth 2000 in
/-- C1 (code bug): the liquidation sweep over an account holding one margin
long (posted margin 20, liquidation price 81) at current price 50 closes and
marks the order liquidated at the current price and timestamp, reverses the
holdings delta and sets both ROI fields to −100, but books
`realized_pnl = +open_amount_margin = +20`, the negation of what the claim
(and the source's own "total loss" comment) require. -/
theorem c1_sweep_books_positive_realized_pnl :
    c1After.history.map (fun o => o.realized_pnl) =
      [c1Order.open_amount_margin] ∧
    c1Order.open_amount_margin = 20 ∧
    c1After.history.map (fun o => o.unrealized_pnl) = [20] ∧
    c1After.history.map (fun o => o.realized_roi_percentage_100) =
      [some (-100)] ∧
    c1After.history.map (fun o => o.roi_percentage_100) = [some (-100)] ∧
    c1After.history.map (fun o => o.order_liquidated) = [true] ∧
    c1After.history.map (fun o => o.closed) = [true] ∧
    c1After.history.map (fun o => o.exit_price) = [50] ∧
    c1After.history.map (fun o => o.close_ts) = [3600] ∧
    c1After.open_orders = [] ∧
    hGet c1After.holdings 0 = 0 ∧
    ¬ c1After.history.map (fun o => o.realized_pnl) = [-20] := by
  norm_num [c1After, Account.checkLiquidationsSweep, sweepAux, c1Acc, c1Order,
    c1Md, Account.liquidateOrder, Account.recordClose, MarketData.getPrice,
    MarketData.rows, List.find?, TradeOrder.qtyValue, hAdd, hGet, hSet,
    List.any, List.eraseP]

/-- C2 (code bug): a margin open with leverage 1 is rejected because the
liquidation-price computation reports no liquidation risk, and cash, the
open set and history are unchanged — but the holdings delta applied before
the liquidation-price call is NOT rolled back: `holdings[asset]` ends at 1
on an account that held 0. -/
theorem c2_rejected_open_leaves_holdings_changed :
    (MarginAccount.openOrder c2Acc c2Order 0 c2Md).2 =
      OpenOutcome.rejectedLiquidationCalc ∧
    (MarginAccount.openOrder c2Acc c2Order 0 c2Md).1.cash = c2Acc.cash ∧
    (MarginAccount.openOrder c2Acc c2Order 0 c2Md).1.open_orders =
      c2Acc.open_orders ∧
    (MarginAccount.openOrder c2Acc c2Order 0 c2Md).1.history =
      c2Acc.history ∧
    hGet c2Acc.holdings 0 = 0 ∧
    hGet (MarginAccount.openOrder c2Acc c2Order 0 c2Md).1.holdings 0 = 1 := by
  norm_num [MarginAccount.openOrder, MarginAccount.openResolved,
    MarginAccount.maxOpenQty, calculateLiquidationPriceMargin,
    MarketData.getPrice, MarketData.rows, List.find?, c2Acc, c2Order, c2Md,
    Account.init, applySlippage, slippageRate, roundQty, tradeFee,
    feeStructure, marginMaxLeverage, hAdd, hGet, hSet, List.any]

set_option maxRecDepth 2000 in
/-- C4 (code bug): `close_all_open_orders` iterates the live open-order list
while `close` removes from it, so on an account with two open orders only
the first is closed: order 2 is still open afterwards, where the claim
requires the open set to be empty. -/
theorem c4_close_all_skips_every_other_order :
    c4Acc.open_orders.map (fun o => o.id) = [1, 2] ∧
    (MarginAccount.closeAllOpenOrders c4Acc 3600 c4Md).open_orders.map
      (fun o => o.id) = [2] ∧
    (MarginAccount.closeAllOpenOrders c4Acc 3600 c4Md).history.map
      (fun o => o.id) = [1] := by
  refine ⟨by norm_num [c4Acc, c4Order1, c4Order2], ?_, ?_⟩
  · norm_num [MarginAccount.closeAllOpenOrders, MarginAccount.closeAllAux,
      MarginAccount.close, MarginAccount.closeFinalCashValue, c4Acc, c4Order1,
      c4Order2, c4Md, Account.recordClose, MarketData.getPrice,
      MarketData.rows, List.find?, TradeOrder.qtyValue, applySlippage,
      oppositeSide, slippageRate, tradeFee, borrowFee, feeStructure,
      borrowInterestHourly, hAdd, hGet, hSet, List.any, List.eraseP]
  · norm_num [MarginAccount.closeAllOpenOrders, MarginAccount.closeAllAux,
      MarginAccount.close, MarginAccount.closeFinalCashValue, c4Acc, c4Order1,
      c4Order2, c4Md, Account.recordClose, MarketData.getPrice,
      MarketData.rows, List.find?, TradeOrder.qtyValue, applySlippage,
      oppositeSide, slippageRate, tradeFee, borrowFee, feeStructure,
      borrowInterestHourly, hAdd, hGet, hSet, List.any, List.eraseP]

/-- C9 (code bug): closing an order id that is in neither the open set nor
the history returns normally with the state unchanged — the
`notFoundNotice` exit models a printed diagnostic followed by `return`, not
a raised error — although the claim (and the method's own docstring) require
a `NotFound` error surfaced to the caller. -/
theorem c9_close_missing_id_returns_normally :
    MarginAccount.close c9Acc 7 0 c9Md = (c9Acc, CloseOutcome.notFoundNotice) ∧
    c9Acc.open_orders = [] ∧ c9Acc.history = [] := by
  refine ⟨rfl, rfl, rfl⟩

/-- C6 counterexample: the claim's worked example is wrong.  For entry
100 000, qty 10, margin balance 100 000, leverage 10, short, the notional is
1 000 000, which the half-open tier lookup places in [800k, 3M) with
mmr = 0.0065 and MA = 1500 — not in [0, 300k) — so the code returns
1 101 500 / 10.065, not 1 100 000 / 10.04. -/
theorem c6_worked_example_uses_wrong_tier :
    calculateLiquidationPriceFuturesNew .short 100000 100000 10 10 ≠
      Except.ok ((1100000 : ℚ) / 10.04) ∧
    calculateLiquidationPriceFuturesNew .short 100000 100000 10 10 =
      Except.ok ((1101500 : ℚ) / 10.065) ∧
    getMaintenanceData (100000 * 10) 10 = Except.ok (0.0065, 1500) := by
  norm_num [calculateLiquidationPriceFuturesNew, getMaintenanceData,
    futuresTiers, List.find?]

set_option maxRecDepth 2000 in
/-- C3 counterexample: starting from a fresh margin account with cash 20,
opening a margin long (qty 1, leverage 10) at close 100 succeeds, and
closing it at the crashed close 1 also succeeds — `close` credits
`pnl + refund − fee − borrow` unconditionally — leaving cash strictly
negative.  The cash ≥ 0 invariant does not survive `MarginAccount.close`. -/
theorem c3_close_can_drive_cash_negative :
    (MarginAccount.openOrder c3Acc c3Order 0 c3Md).2 = OpenOutcome.opened ∧
    (MarginAccount.close (MarginAccount.openOrder c3Acc c3Order 0 c3Md).1
      1 3600 c3Md).2 = CloseOutcome.closedOk ∧
    (MarginAccount.close (MarginAccount.openOrder c3Acc c3Order 0 c3Md).1
      1 3600 c3Md).1.cash < 0 := by
  norm_num [MarginAccount.openOrder, MarginAccount.openResolved,
    MarginAccount.close, MarginAccount.closeFinalCashValue,
    calculateLiquidationPriceMargin, c3Acc, c3Order, c3Md, Account.init,
    Account.recordClose, MarketData.getPrice, MarketData.rows, List.find?,
    TradeOrder.qtyValue, applySlippage, oppositeSide, slippageRate, roundQty,
    tradeFee, borrowFee, feeStructure, borrowInterestHourly,
    marginMaxLeverage, hAdd, hGet, hSet, List.any, List.eraseP]
  simp
  norm_num

/-- In the replace branch of a dict assignment, looking the key up again
finds the fresh value. -/
theorem find?_usersInsert_replace (us : List (ℕ × User)) (uid : ℕ) (u : User)
    (hany : us.any (fun p => p.1 = uid) = true) :
    (us.map (fun p => if p.1 = uid then (uid, u) else p)).find?
      (fun p => p.1 = uid) = some (uid, u) := by
  induction us with
  | nil => simp at hany
  | cons p t ih =>
      by_cases hp : p.1 = uid
      · simp [List.find?, hp]
      · have ht : t.any (fun x => x.1 = uid) = true := by
          simpa [List.any_cons, hp] using hany
        simp [List.find?, hp, ih ht]

/-- Dict assignment followed by lookup of the same key yields the assigned
value, whether the key was present (replace) or not (append). -/
theorem usersLookup_usersInsert (us : List (ℕ × User)) (uid : ℕ) (u : User) :
    usersLookup (usersInsert us uid u) uid = some u := by
  unfold usersInsert usersLookup
  by_cases hany : us.any (fun p => p.1 = uid) = true
  · rw [if_pos hany, find?_usersInsert_replace us uid u hany]
    rfl
  · rw [if_neg hany]
    have hnone : us.find? (fun p => p.1 = uid) = none := by
      rw [List.find?_eq_none]
      intro x hx
      intro hxx
      exact hany (List.any_eq_true.mpr ⟨x, hx, hxx⟩)
    rw [List.find?_append, hnone]
    simp [List.find?]

/-- C10: registering an already-present user id raises no error: the source
unconditionally assigns a freshly initialized `User` over the old entry, so
the old user's accounts, cash, open orders and history are discarded and
the registry afterwards holds exactly the fresh user. -/
theorem c10_reregister_silently_replaces_user (e : TradingEngine) (uid : ℕ)
    (u : User) (sF mF fF : Bool) (sC mC fC : ℚ)
    (hpresent : usersLookup e.users uid = some u) :
    usersLookup (e.registerUser uid sF mF fF sC mC fC).users uid =
      some (User.init sF mF fF sC mC fC) := by
  unfold TradingEngine.registerUser
  exact usersLookup_usersInsert ..

/-- Witness for C10 at a concrete engine: user 5 is registered with a spot
account and cash 100; re-registering id 5 with a margin account and cash 7
replaces it with the fresh user. -/
theorem c10_reregister_silently_replaces_user_witness :
    usersLookup c10E.users 5 = some (User.init true false false 100 0 0) ∧
    usersLookup (c10E.registerUser 5 false true false 0 7 0).users 5 =
      some (User.init false true false 0 7 0) :=
  ⟨rfl, c10_reregister_silently_replaces_user c10E 5
    (User.init true false false 100 0 0) false true false 0 7 0 rfl⟩

/-- C6 (amended): the futures liquidation-price computation looks up
`(mmr, MA)` in the half-open tier bracket `[min, max)` containing
`notional = entry·qty` with its leverage cap, requires
`margin_balance ≥ notional/leverage`, and returns for a long
`(margin_balance + MA − qty·entry)/(qty·mmr − qty)` — or `0.0` when
`margin_balance ≥ notional` — and for a short
`(margin_balance + MA + qty·entry)/(qty·mmr + qty)`.  (The claim's worked
example lands in the `[800k, 3M)` tier, giving `1 101 500/10.065`.) -/
theorem c6_futures_liquidation_price_formulas (side : Side)
    (e m q l mmr ma : ℚ)
    (htier : getMaintenanceData (e * q) l = Except.ok (mmr, ma))
    (hm : e * q / l ≤ m) :
    (∃ t, t ∈ futuresTiers ∧ t.tmin ≤ e * q ∧ e * q < t.tmax ∧
       l ≤ t.maxLeverage ∧ t.mmr = mmr ∧ t.ma = ma) ∧
    (side = Side.long →
       calculateLiquidationPriceFuturesNew side e m q l =
         Except.ok
           (if e * q ≤ m then 0 else (m + ma - q * e) / (q * mmr - q))) ∧
    (side = Side.short →
       calculateLiquidationPriceFuturesNew side e m q l =
         Except.ok ((m + ma + q * e) / (q * mmr + q))) := by
  refine ⟨?_, ?_, ?_⟩
  · unfold getMaintenanceData at htier
    cases hfind : futuresTiers.find?
        (fun t => decide (t.tmin ≤ e * q ∧ e * q < t.tmax)) with
    | none => rw [hfind] at htier; exact absurd htier (by simp)
    | some t =>
        rw [hfind] at htier
        dsimp only at htier
        have hmem := List.mem_of_find?_eq_some hfind
        have hpredb := List.find?_some hfind
        have hpred : t.tmin ≤ e * q ∧ e * q < t.tmax := by simpa using hpredb
        by_cases hl : l ≤ t.maxLeverage
        · rw [if_pos hl] at htier
          have hinj : (t.mmr, t.ma) = (mmr, ma) := by
            injection htier
          exact ⟨t, hmem, hpred.1, hpred.2, hl,
            congrArg Prod.fst hinj, congrArg Prod.snd hinj⟩
        · rw [if_neg hl] at htier
          exact absurd htier (by simp)
  · intro hside
    subst hside
    simp only [calculateLiquidationPriceFuturesNew, htier]
    rw [if_neg (not_lt.mpr hm)]
    split
    · rfl
    · rfl
  · intro hside
    subst hside
    simp only [calculateLiquidationPriceFuturesNew, htier]
    rw [if_neg (not_lt.mpr hm)]

/-- Witness for C6 at the claim's own inputs (entry 100 000, qty 10,
margin balance 100 000, leverage 10, short): the tier lookup yields
`(0.0065, 1500)` and the short formula gives
`(100 000 + 1500 + 10·100 000) / (10·0.0065 + 10)`. -/
theorem c6_futures_liquidation_price_formulas_witness :
    getMaintenanceData ((100000 : ℚ) * 10) 10 = Except.ok (0.0065, 1500) ∧
    (100000 : ℚ) * 10 / 10 ≤ 100000 ∧
    calculateLiquidationPriceFuturesNew Side.short 100000 100000 10 10 =
      Except.ok (((100000 : ℚ) + 1500 + 10 * 100000) / (10 * 0.0065 + 10)) := by
  have htier : getMaintenanceData ((100000 : ℚ) * 10) 10 =
      Except.ok (0.0065, 1500) := by
    norm_num [getMaintenanceData, futuresTiers, List.find?]
  have hm : (100000 : ℚ) * 10 / 10 ≤ 100000 := by norm_num
  exact ⟨htier, hm,
    (c6_futures_liquidation_price_formulas Side.short 100000 100000 10 10
      0.0065 1500 htier hm).2.2 rfl⟩

/-- A successful `update_portfolio_values` only rewrites the user registry:
the tape and the clock are untouched. -/
theorem updatePortfolioValues_ok_eq (e e1 : TradingEngine)
    (h : e.updatePortfolioValues = Except.ok e1) :
    e1.md = e.md ∧ e1.current_ts = e.current_ts := by
  unfold TradingEngine.updatePortfolioValues at h
  cases hm : e.users.mapM (fun (p : ℕ × User) =>
      (p.2.updatePVs e.md e.current_ts).map (fun u => (p.1, u))) with
  | error er => rw [hm] at h; exact absurd h (by simp [Except.map])
  | ok us =>
      rw [hm] at h
      simp only [Except.map, Except.ok.injEq] at h
      rw [← h]
      exact ⟨rfl, rfl⟩

/-- `get_next_timestamp` at the bar with first index `i`: it returns
`(false, next bar)` when index `i+1` exists and `(true, none)` at the last
bar. -/
theorem getNextTimestamp_spec (md : MarketData) (asset : ℕ) (ts : ℚ) (i : ℕ)
    (hi : (md.timestamps asset).findIdx? (fun t => t = ts) = some i) :
    (∀ t, (md.timestamps asset)[i + 1]? = some t →
       md.getNextTimestamp asset ts = Except.ok (false, some t)) ∧
    ((md.timestamps asset)[i + 1]? = none →
       md.getNextTimestamp asset ts = Except.ok (true, none)) := by
  simp only [MarketData.getNextTimestamp, hi]
  constructor
  · intro t ht
    have hlt : i + 1 < (md.timestamps asset).length := by
      by_contra hge
      rw [List.getElem?_eq_none_iff.mpr (by omega)] at ht
      exact absurd ht (by simp)
    rw [dif_pos hlt]
    have hg : (md.timestamps asset)[i + 1]? =
        some ((md.timestamps asset).get ⟨i + 1, hlt⟩) := by
      simp [List.getElem?_eq_getElem hlt]
    rw [hg] at ht
    simp only [Option.some.injEq] at ht
    rw [ht]
  · intro ht
    rw [dif_neg (by rw [List.getElem?_eq_none_iff] at ht; omega)]

/-- C8: when `current_ts` is the bar at (first) index `i` of the pace
asset's tape and the portfolio-value pass succeeds, `update_current_timestamp`
leaves `current_ts` unchanged iff the bar is the last one: with a successor
bar `t` it sets `current_ts = t` and returns `false`; at the last bar it
returns `true` with `current_ts` unchanged, and `get_next_timestamp` itself
yields `(true, none)` there. -/
theorem c8_update_current_timestamp_advances (e e1 : TradingEngine) (i : ℕ)
    (hok : e.updatePortfolioValues = Except.ok e1)
    (hi : (e.md.timestamps (primaryAsset e.md)).findIdx?
        (fun t => t = e.current_ts) = some i) :
    e1.current_ts = e.current_ts ∧
    (∀ t, (e.md.timestamps (primaryAsset e.md))[i + 1]? = some t →
       e.updateCurrentTimestamp =
         Except.ok ({ e1 with current_ts := t }, false)) ∧
    ((e.md.timestamps (primaryAsset e.md))[i + 1]? = none →
       e.updateCurrentTimestamp = Except.ok (e1, true) ∧
       e.md.getNextTimestamp (primaryAsset e.md) e.current_ts =
         Except.ok (true, none)) := by
  obtain ⟨hmd, hts⟩ := updatePortfolioValues_ok_eq e e1 hok
  refine ⟨hts, ?_, ?_⟩
  · intro t ht
    have hnext := (getNextTimestamp_spec e.md (primaryAsset e.md)
      e.current_ts i hi).1 t ht
    unfold TradingEngine.updateCurrentTimestamp
    rw [hok]
    simp only [Except.bind, bind]
    rw [hmd, hts, hnext]
    rfl
  · intro ht
    have hnext := (getNextTimestamp_spec e.md (primaryAsset e.md)
      e.current_ts i hi).2 ht
    refine ⟨?_, hnext⟩
    unfold TradingEngine.updateCurrentTimestamp
    rw [hok]
    simp only [Except.bind, bind]
    rw [hmd, hts, hnext]
    rfl

/-- Witness for C8 on a two-bar tape (bars 0 and 3600) with no users:
`update_portfolio_values` succeeds trivially, bar 0 has index 0, and the
call moves `current_ts` to 3600 returning `false`. -/
theorem c8_update_current_timestamp_advances_witness :
    c8E.updatePortfolioValues = Except.ok c8E ∧
    List.findIdx? (fun t => t = (0 : ℚ))
      (c8Md.timestamps (primaryAsset c8Md)) = some 0 ∧
    c8E.updateCurrentTimestamp =
      Except.ok ({ c8E with current_ts := 3600 }, false) := by
  have hok : c8E.updatePortfolioValues = Except.ok c8E := rfl
  have hi : (c8E.md.timestamps (primaryAsset c8E.md)).findIdx?
      (fun t => t = c8E.current_ts) = some 0 := by
    norm_num [c8E, c8Md, MarketData.timestamps, MarketData.rows,
      primaryAsset, List.findIdx?]
  have h := c8_update_current_timestamp_advances c8E c8E 0 hok hi
  refine ⟨hok, by simpa [c8E] using hi, ?_⟩
  exact h.2.1 3600 (by norm_num [c8E, c8Md, MarketData.timestamps,
    MarketData.rows, primaryAsset])

/-- C5: a margin order found open and closed by `MarginAccount.close` (not a
liquidation: its liquidated flag is untouched) is recorded in history
satisfying both identities exactly:
`realized_pnl = closed_amount_user − open_amount_user` and
`closed_amount_user = unrealized_pnl + open_amount_margin − trade_fee_close −
borrow_fee_margin`.  The hypothesis `hmargin` is the relation the open path
establishes: the posted margin is `qty·entry_price/leverage`, which is
exactly the refunded margin at close. -/
theorem c5_margin_close_pnl_identities (acc : Account) (orderId : ℕ)
    (ts : ℚ) (md : MarketData) (o : TradeOrder) (p : ℚ)
    (hfind : acc.open_orders.find? (fun x => x.id = orderId) = some o)
    (hopen : o.closed = false) (hmode : o.mode = Mode.margin)
    (hp : md.getPrice o.asset ts = Except.ok p)
    (hmargin : o.open_amount_margin = o.qtyValue * o.entry_price / o.leverage) :
    ∃ oc : TradeOrder,
      (MarginAccount.close acc orderId ts md).1.history =
        acc.history ++ [oc] ∧
      (MarginAccount.close acc orderId ts md).2 = CloseOutcome.closedOk ∧
      oc.order_liquidated = o.order_liquidated ∧
      oc.realized_pnl = oc.closed_amount_user - oc.open_amount_user ∧
      oc.closed_amount_user = oc.unrealized_pnl + oc.open_amount_margin -
        oc.trade_fee_close - oc.borrow_fee_margin := by
  unfold MarginAccount.close
  rw [hfind]
  simp only [hopen, hmode, hp, Bool.false_eq_true, if_false, ne_eq,
    eq_self_iff_true, not_true, ite_false, ite_true]
  unfold Account.recordClose
  dsimp only
  refine ⟨_, rfl, trivial, rfl, rfl, ?_⟩
  dsimp only [MarginAccount.closeFinalCashValue]
  rw [hmargin]

/-- Witness for C5: the account `c5Acc` holds the open margin long
`c5Order` (entry 100, qty 1, leverage 5, posted margin 20); closing it at
the 3600-bar (close 102) satisfies all hypotheses concretely. -/
theorem c5_margin_close_pnl_identities_witness :
    c5Acc.open_orders.find? (fun x => x.id = 1) = some c5Order ∧
    c5Order.closed = false ∧
    c5Order.mode = Mode.margin ∧
    c5Md.getPrice c5Order.asset 3600 = Except.ok 102 ∧
    c5Order.open_amount_margin =
      c5Order.qtyValue * c5Order.entry_price / c5Order.leverage ∧
    (∃ oc : TradeOrder,
      (MarginAccount.close c5Acc 1 3600 c5Md).1.history =
        c5Acc.history ++ [oc] ∧
      (MarginAccount.close c5Acc 1 3600 c5Md).2 = CloseOutcome.closedOk ∧
      oc.order_liquidated = c5Order.order_liquidated ∧
      oc.realized_pnl = oc.closed_amount_user - oc.open_amount_user ∧
      oc.closed_amount_user = oc.unrealized_pnl + oc.open_amount_margin -
        oc.trade_fee_close - oc.borrow_fee_margin) := by
  have hfind : c5Acc.open_orders.find? (fun x => x.id = 1) = some c5Order :=
    rfl
  have hp : c5Md.getPrice c5Order.asset 3600 = Except.ok 102 := by
    norm_num [c5Md, c5Order, MarketData.getPrice, MarketData.rows, List.find?]
  have hmargin : c5Order.open_amount_margin =
      c5Order.qtyValue * c5Order.entry_price / c5Order.leverage := by
    norm_num [c5Order, TradeOrder.qtyValue]
  exact ⟨hfind, rfl, rfl, hp, hmargin,
    c5_margin_close_pnl_identities c5Acc 1 3600 c5Md c5Order 102 hfind rfl
      rfl hp hmargin⟩

/-- The resolved-quantity body of the margin open preserves `cash ≥ 0`:
every reject exit leaves cash unchanged, and the success exit debits
`margin + fee` only after checking `cash ≥ margin + fee`. -/
theorem marginOpenResolved_cash_nonneg (acc : Account) (o : TradeOrder)
    (ts px q : ℚ) (hc : 0 ≤ acc.cash) :
    0 ≤ (MarginAccount.openResolved acc o ts px q).1.cash := by
  unfold MarginAccount.openResolved
  dsimp only
  split_ifs <;> try exact hc
  all_goals split
  all_goals try exact hc
  all_goals dsimp only
  all_goals simp only [not_not] at *
  all_goals linarith

/-- `MarginAccount.open` preserves `cash ≥ 0` on every exit. -/
theorem marginOpen_cash_nonneg (acc : Account) (o : TradeOrder) (ts : ℚ)
    (md : MarketData) (hc : 0 ≤ acc.cash) :
    0 ≤ (MarginAccount.openOrder acc o ts md).1.cash := by
  unfold MarginAccount.openOrder
  split
  · exact hc
  · split
    · exact hc
    · dsimp only
      split
      · split
        · exact hc
        · exact marginOpenResolved_cash_nonneg acc o ts _ _ hc
      · exact marginOpenResolved_cash_nonneg acc o ts _ _ hc
      · exact hc

/-- The resolved-quantity body of the spot open preserves `cash ≥ 0` for a
nonnegative execution price: a buy is debited only after the affordability
check, and a sell credits `cost − fee = qty·px·(1 − fee_rate) ≥ 0`. -/
theorem spotOpenResolved_cash_nonneg (acc : Account) (o : TradeOrder)
    (ts px q : ℚ) (hc : 0 ≤ acc.cash) (hpx : 0 ≤ px) :
    0 ≤ (SpotAccount.openResolved acc o ts px q).1.cash := by
  unfold SpotAccount.openResolved SpotAccount.closeFinalCashValue
  dsimp only
  split_ifs <;> try exact hc
  all_goals dsimp only
  all_goals simp only [not_not] at *
  · linarith
  · rename_i h1 h2 h3 h4 h5
    have hq0 : 0 < roundQty q := lt_of_not_ge (by simpa using h2)
    have hcost : 0 ≤ roundQty q * px := mul_nonneg hq0.le hpx
    have hfee : tradeFee Mode.spot acc.acc_type (roundQty q * px) =
        roundQty q * px * (1 / 1000) := by
      cases hA : acc.acc_type
      unfold tradeFee feeStructure
      norm_num
    rw [hfee]
    nlinarith

/-- Slippage keeps a nonnegative price nonnegative (both factors
`1 ± 0.0005` are positive). -/
theorem applySlippage_nonneg (p : ℚ) (side : Side) (s : ℚ) (hp : 0 ≤ p)
    (hs0 : 0 ≤ s) (hs : s ≤ 1) : 0 ≤ applySlippage p side s := by
  unfold applySlippage
  apply mul_nonneg hp
  split
  · linarith
  · linarith

/-- C3 (amended): `cash ≥ 0` is preserved by every spot and margin open on
any tape with nonnegative prices — an open that would overdraw is rejected
with cash unchanged.  (The original claim extends this to
`MarginAccount.close`, which credits `pnl + refund − fee − borrow`
unconditionally and can leave cash negative; see the counterexample.) -/
theorem c3_cash_nonneg_preserved_by_opens (acc : Account) (o : TradeOrder)
    (ts : ℚ) (md : MarketData) (hc : 0 ≤ acc.cash)
    (hpx : ∀ pr, md.getPrice o.asset ts = Except.ok pr → 0 ≤ pr) :
    0 ≤ (MarginAccount.openOrder acc o ts md).1.cash ∧
    0 ≤ (SpotAccount.openOrder acc o ts md).1.cash := by
  refine ⟨marginOpen_cash_nonneg acc o ts md hc, ?_⟩
  unfold SpotAccount.openOrder
  cases hp : md.getPrice o.asset ts with
  | error er => exact hc
  | ok p0 =>
      have hp0 : 0 ≤ p0 := hpx p0 hp
      have hpxs : 0 ≤ applySlippage p0 o.side (slippageRate Mode.spot) :=
        applySlippage_nonneg p0 o.side (slippageRate Mode.spot) hp0
          (by norm_num [slippageRate]) (by norm_num [slippageRate])
      dsimp only
      split
      · split
        · exact hc
        · split
          · exact hc
          · split
            · exact hc
            · exact spotOpenResolved_cash_nonneg acc _ ts _ _ hc hpxs
      · split
        · exact hc
        · split
          · exact hc
          · exact spotOpenResolved_cash_nonneg acc _ ts _ _ hc hpxs
      · exact spotOpenResolved_cash_nonneg acc _ ts _ _ hc hpxs

/-- Witness for C3's amended statement: a fresh margin account with cash 50
and a margin long (qty 1, leverage 5) on a tape whose only price is 100. -/
theorem c3_cash_nonneg_preserved_by_opens_witness :
    0 ≤ c3wAcc.cash ∧
    (∀ pr, c3wMd.getPrice c3wOrder.asset 0 = Except.ok pr → 0 ≤ pr) ∧
    0 ≤ (MarginAccount.openOrder c3wAcc c3wOrder 0 c3wMd).1.cash ∧
    0 ≤ (SpotAccount.openOrder c3wAcc c3wOrder 0 c3wMd).1.cash := by
  have hc : 0 ≤ c3wAcc.cash := by norm_num [c3wAcc, Account.init]
  have hpx : ∀ pr, c3wMd.getPrice c3wOrder.asset 0 = Except.ok pr →
      0 ≤ pr := by
    intro pr hpr
    have h100 : c3wMd.getPrice c3wOrder.asset 0 = Except.ok 100 := by
      norm_num [c3wMd, c3wOrder, MarketData.getPrice, MarketData.rows,
        List.find?]
    rw [h100] at hpr
    injection hpr with h
    rw [← h]
    norm_num
  exact ⟨hc, hpx,
    c3_cash_nonneg_preserved_by_opens c3wAcc c3wOrder 0 c3wMd hc hpx⟩

end CryptoEngine
